import Mathlib

/-!
Shallow embedding of the heist control plane of `aoc_2025_heist`:

* `src/day_20/heist_controller.py` — `HeistController` (session registry,
  command channel, mole assignment, detection evaluation);
* `src/day_20/mole_game_engine.py` — `MoleGameEngine` (`start_game`,
  `submit_detection`);
* `src/day_22/sabotage_detector_standalone.py` — `SabotageDetector`
  (rule-based suspicion scoring and its fusion with an external judgment call).

Python dictionaries are modelled as insertion-ordered association lists with
unique keys (`getKey` / `setKey` mirror `d[k]` / `d[k] = v`).  Wall-clock
timestamp fields (`datetime.now().isoformat()`) are omitted: no claim refers
to them.  Python float arithmetic in the detector is modelled over `ℚ`, with
`math.sqrt` passed in as an explicit function argument `sqrtQ` (its only uses
in the theorems below are at variance `0`, where float sqrt returns `0`).
The randomness of `random.choice` is modelled by explicit index arguments:
`random.choice xs` becomes `xs.getD (i % xs.length) default` for a caller
supplied `i`, which ranges over exactly the possible draws.
-/

namespace Heist

/-- Status of a heist session (`HeistStatus` in `heist_controller.py`). -/
inductive HeistStatus
  | idle
  | running
  | paused
  | completed
  | failed
deriving DecidableEq

/-- Outcome of the mole-detection game (`GameOutcome`). -/
inductive GameOutcome
  | success
  | failure
  | busted
deriving DecidableEq

/-- Sabotage strategies (`SabotagePattern`), a fixed catalog of five. -/
inductive SabotagePattern
  | timing_errors
  | false_info
  | coordination_chaos
  | subtle_delays
  | wrong_tools
deriving DecidableEq

/-- The catalog `list(SabotagePattern)` in declaration order. -/
def patternCatalog : List SabotagePattern :=
  [.timing_errors, .false_info, .coordination_chaos, .subtle_delays, .wrong_tools]

/-- One entry of a session's command queue (`command_obj` in `send_command`);
the enqueue timestamp is omitted. -/
structure Command where
  agent : String
  command : String
  executed : Bool
deriving DecidableEq

/-- Placeholder command used as the (never inspected) default of `List.getD`. -/
def noCommand : Command := ⟨"", "", false⟩

/-- One entry of `HeistController.active_sessions`; timestamps omitted,
sabotage events reduced to their severities (the only field read back). -/
structure Session where
  status : HeistStatus
  agents : List String
  current_turn : Nat
  mole : Option String
  sabotage_pattern : Option SabotagePattern
  detected_mole : Option String
  game_outcome : Option GameOutcome
  sabotage_severities : List ℚ
deriving DecidableEq

/-- `HeistController.game_stats`. -/
structure GameStats where
  total_games : Nat
  successful_detections : Nat
  failed_detections : Nat
  busted_games : Nat
deriving DecidableEq

/-- The mutable state of a `HeistController` instance. -/
structure Controller where
  active_sessions : List (String × Session)
  command_queue : List (String × List Command)
  pause_flags : List (String × Bool)
  game_stats : GameStats
deriving DecidableEq

/-- The state of a freshly constructed `HeistController()`. -/
def Controller.init : Controller :=
  { active_sessions := [], command_queue := [], pause_flags := []
    game_stats := ⟨0, 0, 0, 0⟩ }

/-- Dictionary read `d.get(k)` over an insertion-ordered association list. -/
def getKey {β : Type} : List (String × β) → String → Option β
  | [], _ => none
  | p :: l, k => if p.1 = k then some p.2 else getKey l k

/-- Dictionary write `d[k] = v`: replaces the value at an existing key in
place, otherwise appends the new binding (Python insertion order). -/
def setKey {β : Type} : List (String × β) → String → β → List (String × β)
  | [], k, v => [(k, v)]
  | p :: l, k, v => if p.1 = k then (k, v) :: l else p :: setKey l k v

/-- Decidable equality for `Except` results, so concrete runs can be checked
by `decide`. -/
instance {ε α : Type} [DecidableEq ε] [DecidableEq α] : DecidableEq (Except ε α) := fun a b =>
  match a, b with
  | .ok x, .ok y =>
    if h : x = y then .isTrue (congrArg Except.ok h)
    else .isFalse fun hh => h (Except.ok.inj hh)
  | .error x, .error y =>
    if h : x = y then .isTrue (congrArg Except.error h)
    else .isFalse fun hh => h (Except.error.inj hh)
  | .ok _, .error _ => .isFalse fun hh => Except.noConfusion hh
  | .error _, .ok _ => .isFalse fun hh => Except.noConfusion hh

/-- Error results returned by controller operations as
`{"success": False, "error": ...}` dictionaries. -/
inductive CtrlError
  | sessionNotFound
  | sessionNotRunning
  | sessionNotPaused
deriving DecidableEq

/-- The part of `start_session`'s return value the claims inspect. -/
structure StartRes where
  success : Bool
  mole_selected : Bool
  sabotage_pattern : Option SabotagePattern
deriving DecidableEq

/-- Python truthiness of an optional string (`if mole:`, `if agent:`):
`None` and the empty string are falsy. -/
def truthyStr : Option String → Bool
  | none => false
  | some s => !s.isEmpty

/-- `HeistController.start_session(session_id, agents, config)`.  The two
`random.choice` draws are supplied as `moleIdx` (index of the mole among
`agents`) and `patIdx` (index into the five-pattern catalog).  The pattern
draw is guarded by `if mole` — Python truthiness, falsy for the empty
string — so a drawn empty-string participant gets a mole but no pattern;
the returned `mole_selected` uses `mole is not None`, an identity test.
The `config` dictionary is never read back by any claim and is omitted from
`Session`. -/
def start_session (c : Controller) (sid : String) (agents : List String)
    (moleIdx patIdx : Nat) : Controller × StartRes :=
  let mole : Option String :=
    if agents.length > 0 then some (agents.getD (moleIdx % agents.length) "") else none
  let pat : Option SabotagePattern :=
    if truthyStr mole then some (patternCatalog.getD (patIdx % 5) .timing_errors) else none
  let sess : Session :=
    { status := .running, agents := agents, current_turn := 0, mole := mole
      sabotage_pattern := pat, detected_mole := none, game_outcome := none
      sabotage_severities := [] }
  ({ c with
      active_sessions := setKey c.active_sessions sid sess
      command_queue := setKey c.command_queue sid []
      pause_flags := setKey c.pause_flags sid false },
   { success := true, mole_selected := mole.isSome, sabotage_pattern := pat })

/-- `HeistController.pause_session(session_id)`. -/
def pause_session (c : Controller) (sid : String) :
    Controller × Except CtrlError HeistStatus :=
  match getKey c.active_sessions sid with
  | none => (c, .error .sessionNotFound)
  | some s =>
    if s.status ≠ HeistStatus.running then (c, .error .sessionNotRunning)
    else
      ({ c with
          active_sessions := setKey c.active_sessions sid { s with status := .paused }
          pause_flags := setKey c.pause_flags sid true },
       .ok .paused)

/-- `HeistController.resume_session(session_id)`. -/
def resume_session (c : Controller) (sid : String) :
    Controller × Except CtrlError HeistStatus :=
  match getKey c.active_sessions sid with
  | none => (c, .error .sessionNotFound)
  | some s =>
    if s.status ≠ HeistStatus.paused then (c, .error .sessionNotPaused)
    else
      ({ c with
          active_sessions := setKey c.active_sessions sid { s with status := .running }
          pause_flags := setKey c.pause_flags sid false },
       .ok .running)

/-- `HeistController.send_command(session_id, agent, command)`. -/
def send_command (c : Controller) (sid agent cmd : String) :
    Controller × Except CtrlError Unit :=
  match getKey c.active_sessions sid with
  | none => (c, .error .sessionNotFound)
  | some _ =>
    let q := (getKey c.command_queue sid).getD []
    ({ c with command_queue := setKey c.command_queue sid (q ++ [⟨agent, cmd, false⟩]) },
     .ok ())

/-- `HeistController.get_pending_commands(session_id, agent)`.  The Python
`if agent:` guard is truthy only for a non-`None`, non-empty string, so an
empty-string filter behaves like no filter. -/
def get_pending_commands (c : Controller) (sid : String) (agent : Option String) :
    List Command :=
  match getKey c.command_queue sid with
  | none => []
  | some q =>
    match agent with
    | some a => if a ≠ "" then q.filter (fun cmd => cmd.agent == a && !cmd.executed) else q
    | none => q

/-- Result of `mark_command_executed`: the two structured error returns, plus
the uncaught `IndexError` a sufficiently negative index raises. -/
inductive MarkOutcome
  | ok
  | errNotFound
  | errOutOfRange
  | raisedIndexError
deriving DecidableEq

/-- Set `executed = True` on the command at a (nonnegative) position. -/
def setExecutedAt : List Command → Nat → List Command
  | [], _ => []
  | cmd :: q, 0 => { cmd with executed := true } :: q
  | cmd :: q, n + 1 => cmd :: setExecutedAt q n

/-- `HeistController.mark_command_executed(session_id, command_index)`.  The
source only guards `command_index >= len(queue)`; Python list indexing then
accepts negative indices down to `-len` (counting from the end) and raises an
uncaught `IndexError` below that. -/
def mark_command_executed (c : Controller) (sid : String) (idx : Int) :
    Controller × MarkOutcome :=
  match getKey c.command_queue sid with
  | none => (c, .errNotFound)
  | some q =>
    if (q.length : Int) ≤ idx then (c, .errOutOfRange)
    else
      let j : Int := if idx ≥ 0 then idx else idx + q.length
      if j < 0 then (c, .raisedIndexError)
      else
        ({ c with command_queue := setKey c.command_queue sid (setExecutedAt q j.toNat) },
         .ok)

/-- `HeistController.is_paused(session_id)` — `pause_flags.get(sid, False)`. -/
def is_paused (c : Controller) (sid : String) : Bool :=
  (getKey c.pause_flags sid).getD false

/-- `HeistController.update_turn(session_id, turn)`. -/
def update_turn (c : Controller) (sid : String) (turn : Nat) :
    Controller × Except CtrlError Nat :=
  match getKey c.active_sessions sid with
  | none => (c, .error .sessionNotFound)
  | some s =>
    ({ c with active_sessions := setKey c.active_sessions sid { s with current_turn := turn } },
     .ok turn)

/-- `HeistController.complete_session(session_id, success)`.  The source
checks only that the session exists: it never inspects the current status. -/
def complete_session (c : Controller) (sid : String) (success : Bool) :
    Controller × Except CtrlError HeistStatus :=
  match getKey c.active_sessions sid with
  | none => (c, .error .sessionNotFound)
  | some s =>
    let st : HeistStatus := if success then .completed else .failed
    ({ c with active_sessions := setKey c.active_sessions sid { s with status := st } },
     .ok st)

/-- `HeistController.set_detected_mole(session_id, agent)`. -/
def set_detected_mole (c : Controller) (sid agent : String) :
    Controller × Except CtrlError Unit :=
  match getKey c.active_sessions sid with
  | none => (c, .error .sessionNotFound)
  | some s =>
    ({ c with active_sessions := setKey c.active_sessions sid { s with detected_mole := some agent } },
     .ok ())

/-- The part of `evaluate_detection`'s return value the claims inspect. -/
structure EvalRes where
  outcome : GameOutcome
  actual_mole : Option String
  detected_mole : Option String
  sabotage_score : ℚ
deriving DecidableEq

/-- The outcome branch of `evaluate_detection`: no guess is `busted`, a
guess equal to the actual mole is `success`, anything else `failure` (also
when no mole was assigned at all: `detected_mole == actual_mole` is then a
comparison with `None` and fails). -/
def classify (mole detected : Option String) : GameOutcome :=
  match detected with
  | none => .busted
  | some d => if mole = some d then .success else .failure

/-- `HeistController.evaluate_detection(session_id)`.  Every call recomputes
the outcome from the session's current `detected_mole` and `mole`, writes it
to `game_outcome`, and bumps the global statistics. -/
def evaluate_detection (c : Controller) (sid : String) :
    Controller × Except CtrlError EvalRes :=
  match getKey c.active_sessions sid with
  | none => (c, .error .sessionNotFound)
  | some s =>
    let outcome : GameOutcome := classify s.mole s.detected_mole
    let gs := c.game_stats
    let gs :=
      match outcome with
      | .busted => { gs with busted_games := gs.busted_games + 1 }
      | .success => { gs with successful_detections := gs.successful_detections + 1 }
      | .failure => { gs with failed_detections := gs.failed_detections + 1 }
    let gs := { gs with total_games := gs.total_games + 1 }
    ({ c with
        active_sessions := setKey c.active_sessions sid { s with game_outcome := some outcome }
        game_stats := gs },
     .ok { outcome := outcome, actual_mole := s.mole, detected_mole := s.detected_mole
           sabotage_score := s.sabotage_severities.sum })

/-! ### Mole game engine (`mole_game_engine.py`) -/

/-- One entry of `MoleGameEngine.games`; timestamps and the instruction text
are omitted (the text is a fixed lookup into the pattern table). -/
structure Game where
  agents : List String
  mole : String
  sabotage_pattern : SabotagePattern
  detected_mole : Option String
  outcome : Option GameOutcome
deriving DecidableEq

/-- The mutable state of a `MoleGameEngine` instance. -/
structure Engine where
  games : List (String × Game)
deriving DecidableEq

/-- `MoleGameEngine.start_game(session_id, agents, config)`.  Fewer than two
agents is rejected up front (`if not agents or len(agents) < 2`); otherwise a
mole and a pattern are drawn (`moleIdx`, `patIdx` model `random.choice`). -/
def start_game (e : Engine) (sid : String) (agents : List String)
    (moleIdx patIdx : Nat) : Engine × Bool :=
  if agents.isEmpty || agents.length < 2 then (e, false)
  else
    let mole := agents.getD (moleIdx % agents.length) ""
    let pat := patternCatalog.getD (patIdx % 5) .timing_errors
    ({ games := setKey e.games sid
        { agents := agents, mole := mole, sabotage_pattern := pat
          detected_mole := none, outcome := none } },
     true)

/-- The part of `submit_detection`'s return value the claims inspect. -/
structure SubmitRes where
  outcome : GameOutcome
  actual_mole : String
  detected_mole : Option String
deriving DecidableEq

/-- `MoleGameEngine.submit_detection(session_id, agent_guess)`.  A missing
game raises `ValueError` (the `Except` error).  Once `outcome` is set the
frozen result is returned unchanged and the guess is ignored; otherwise the
guess is recorded and the outcome computed and stored. -/
def submit_detection (e : Engine) (sid guess : String) :
    Engine × Except Unit SubmitRes :=
  match getKey e.games sid with
  | none => (e, .error ())
  | some g =>
    match g.outcome with
    | some o =>
      (e, .ok { outcome := o, actual_mole := g.mole, detected_mole := g.detected_mole })
    | none =>
      let outcome : GameOutcome := if guess = g.mole then .success else .failure
      ({ games := setKey e.games sid { g with detected_mole := some guess, outcome := some outcome } },
       .ok { outcome := outcome, actual_mole := g.mole, detected_mole := some guess })

/-! ### Sabotage detector (`sabotage_detector_standalone.py`)

Scores are computed over `ℚ`; the only transcendental operation of the
source, `math.sqrt` in `_analyze_message_anomalies`, is supplied as an
explicit function argument `sqrtQ`. -/

/-- One message record: `{"agent_name": ..., "message": ...}`. -/
structure DMsg where
  agent_name : Option String
  message : String

/-- One tool-usage record: `{"agent": ..., "tool_name": ..., "success": ...}`
(the `success` default `True` is applied when the record is built). -/
structure ToolUse where
  agent : Option String
  tool_name : Option String
  success : Bool

/-- Lowercased character list of a string (`s.lower()`), over which the
source's substring tests run. -/
def pyLower (s : String) : List Char :=
  s.data.map Char.toLower

/-- Boolean substring test `kw in content` on character lists. -/
def infixOfChars : List Char → List Char → Bool
  | kw, [] => kw.isEmpty
  | kw, c :: rest => kw.isPrefixOf (c :: rest) || infixOfChars kw rest

/-- `sum(1 for keyword in kws if keyword in content)`. -/
def countKw (content : List Char) (kws : List String) : Nat :=
  (kws.filter fun kw => infixOfChars kw.data content).length

/-- `timing_keywords` of `_analyze_timing_patterns`. -/
def timingKeywords : List String :=
  ["minute", "hour", "second", "time", "timing", "quick", "slow",
   "rush", "wait", "delay", "hurry", "patience", "schedule"]

/-- `contradiction_keywords` of `_analyze_timing_patterns`. -/
def contradictionKeywords : List String :=
  ["actually", "wait", "no", "wrong", "mistake", "correct",
   "change", "nevermind", "sorry", "my bad"]

/-- `hesitation_markers` of `_analyze_message_anomalies`. -/
def hesitationMarkers : List String :=
  ["hmm", "uh", "um", "wait", "let me think", "actually"]

/-- `concrete_keywords` of `_analyze_information_quality`. -/
def concreteKeywords : List String :=
  ["camera", "guard", "vault", "door", "window", "sensor",
   "alarm", "code", "key", "lock", "route", "entrance"]

/-- `vague_keywords` of `_analyze_information_quality`. -/
def vagueKeywords : List String :=
  ["maybe", "probably", "might", "could be", "not sure",
   "i think", "possibly", "perhaps", "unclear"]

/-- First-occurrence deduplication, with the names already seen carried as
an accumulator: the key order a Python dict built over `agents` ends up
with. -/
def dedupFrom (seen : List String) : List String → List String
  | [] => []
  | a :: l => if a ∈ seen then dedupFrom seen l else a :: dedupFrom (a :: seen) l

/-- Duplicate participant names collapse onto their first occurrence, as in
a Python dict comprehension over the participant list. -/
def pyDedup (l : List String) : List String := dedupFrom [] l

/-- The `(agent, success)` pairs kept by `_analyze_tool_usage`'s grouping
loop (`if agent and tool:`). -/
def validTools (tu : List ToolUse) : List (String × Bool) :=
  tu.filterMap fun u =>
    if truthyStr u.agent && truthyStr u.tool_name then some (u.agent.getD "", u.success) else none

/-- Keys of the `agent_tools` dictionary, in first-appearance order. -/
def toolAuthors (tu : List ToolUse) : List String :=
  pyDedup ((validTools tu).map Prod.fst)

/-- The success flags recorded for one agent. -/
def toolsOf (tu : List ToolUse) (a : String) : List Bool :=
  ((validTools tu).filter fun p => p.1 == a).map Prod.snd

/-- Per-agent tool success rate `successes / len(tools)`. -/
def successRate (tu : List ToolUse) (a : String) : ℚ :=
  (((toolsOf tu a).filter id).length : ℚ) / ((toolsOf tu a).length : ℚ)

/-- `avg_success_rate`: the mean of the per-agent success rates. -/
def avgSuccessRate (tu : List ToolUse) : ℚ :=
  if (toolAuthors tu).length > 0 then
    (((toolAuthors tu).map (successRate tu)).sum) / ((toolAuthors tu).length : ℚ)
  else 0

/-- `SabotageDetector._analyze_tool_usage`, as the score of one agent: agents
below the average rate score `min(1.5 * deviation, 1)`, everyone else `0`. -/
def toolScore (tu : List ToolUse) (a : String) : ℚ :=
  if (toolsOf tu a).isEmpty then 0
  else if successRate tu a < avgSuccessRate tu then
    min ((avgSuccessRate tu - successRate tu a) / avgSuccessRate tu * (3 / 2)) 1
  else 0

/-- Truthy message authors in first-appearance order (the keys the
`defaultdict` counters acquire). -/
def msgAuthors (msgs : List DMsg) : List String :=
  pyDedup (msgs.filterMap fun m =>
    if truthyStr m.agent_name then some (m.agent_name.getD "") else none)

/-- Lowercased contents of one agent's truthy-authored messages. -/
def lowContentsOf (msgs : List DMsg) (a : String) : List (List Char) :=
  msgs.filterMap fun m =>
    if truthyStr m.agent_name && (m.agent_name.getD "" == a) then some (pyLower m.message) else none

/-- Timing-keyword hits accumulated for one agent. -/
def timingCount (msgs : List DMsg) (a : String) : Nat :=
  ((lowContentsOf msgs a).map fun content => countKw content timingKeywords).sum

/-- Contradiction-keyword hits accumulated for one agent. -/
def contraCount (msgs : List DMsg) (a : String) : Nat :=
  ((lowContentsOf msgs a).map fun content => countKw content contradictionKeywords).sum

/-- `max_timing`: the maximum of the per-author timing counts, `1` when no
truthy author exists (`max(dict.values()) if dict else 1`). -/
def maxTiming (msgs : List DMsg) : Nat :=
  if (msgAuthors msgs).isEmpty then 1
  else ((msgAuthors msgs).map (timingCount msgs)).foldl max 0

/-- `max_contradictions`, analogously. -/
def maxContra (msgs : List DMsg) : Nat :=
  if (msgAuthors msgs).isEmpty then 1
  else ((msgAuthors msgs).map (contraCount msgs)).foldl max 0

/-- `SabotageDetector._analyze_timing_patterns`, as the score of one agent:
half the agent's share of the maximal timing count plus half its share of
the maximal contradiction count (each guarded against a zero maximum). -/
def timingScore (msgs : List DMsg) (a : String) : ℚ :=
  (if maxTiming msgs > 0 then (timingCount msgs a : ℚ) / (maxTiming msgs : ℚ) else 0) * (1 / 2) +
    (if maxContra msgs > 0 then (contraCount msgs a : ℚ) / (maxContra msgs : ℚ) else 0) * (1 / 2)

/-- Raw contents of one agent's truthy-authored messages (`agent_messages`). -/
def contentsOf (msgs : List DMsg) (a : String) : List String :=
  msgs.filterMap fun m =>
    if truthyStr m.agent_name && (m.agent_name.getD "" == a) then some m.message else none

/-- Lengths of all truthy-authored messages (`all_lengths`). -/
def allMsgLengths (msgs : List DMsg) : List Nat :=
  msgs.filterMap fun m => if truthyStr m.agent_name then some m.message.length else none

/-- `avg_length` over `all_lengths`. -/
def meanMsgLen (msgs : List DMsg) : ℚ :=
  let ls := allMsgLengths msgs
  ((ls.map fun l => (l : ℚ)).sum) / (ls.length : ℚ)

/-- The variance whose (floating-point) square root the source binds to
`std_dev`. -/
def msgLenVariance (msgs : List DMsg) : ℚ :=
  let ls := allMsgLengths msgs
  ((ls.map fun l => ((l : ℚ) - meanMsgLen msgs) ^ 2).sum) / (ls.length : ℚ)

/-- Hesitation hits: one per message/marker pair, so a single message holding
several markers is counted several times. -/
def hesitationCount (contents : List String) : Nat :=
  (contents.map fun m => countKw (pyLower m) hesitationMarkers).sum

/-- The agent's mean message length `agent_avg_length`. -/
def myAvgLen (msgs : List DMsg) (a : String) : ℚ :=
  (((contentsOf msgs a).map fun m => (m.length : ℚ)).sum) / ((contentsOf msgs a).length : ℚ)

/-- The deviation part of the message-anomaly score: active only when
`std_dev > 0`, and capped at `1` (`min(deviation / 2.0, 1.0)`). -/
def msgBase (sqrtQ : ℚ → ℚ) (msgs : List DMsg) (a : String) : ℚ :=
  if 0 < sqrtQ (msgLenVariance msgs) then
    min (|myAvgLen msgs a - meanMsgLen msgs| / sqrtQ (msgLenVariance msgs) / 2) 1
  else 0

/-- The hesitation frequency `hesitation_count / len(msgs)`. -/
def hesFreq (msgs : List DMsg) (a : String) : ℚ :=
  (hesitationCount (contentsOf msgs a) : ℚ) / ((contentsOf msgs a).length : ℚ)

/-- `SabotageDetector._analyze_message_anomalies`, as the score of one agent:
the capped length deviation, overridden by the hesitation frequency whenever
the latter is larger (`max`), with no upper cap on the hesitation part. -/
def msgScore (sqrtQ : ℚ → ℚ) (msgs : List DMsg) (a : String) : ℚ :=
  if (contentsOf msgs a).isEmpty then 0
  else if (allMsgLengths msgs).isEmpty then 0
  else max (msgBase sqrtQ msgs a) (hesFreq msgs a)

/-- Concrete-keyword hits accumulated for one agent. -/
def concreteCount (msgs : List DMsg) (a : String) : Nat :=
  ((lowContentsOf msgs a).map fun content => countKw content concreteKeywords).sum

/-- Vague-keyword hits accumulated for one agent. -/
def vagueCount (msgs : List DMsg) (a : String) : Nat :=
  ((lowContentsOf msgs a).map fun content => countKw content vagueKeywords).sum

/-- `SabotageDetector._analyze_information_quality`, as the score of one
agent: the vagueness share `vague / (concrete + vague)`. -/
def infoScore (msgs : List DMsg) (a : String) : ℚ :=
  if concreteCount msgs a + vagueCount msgs a = 0 then 0
  else (vagueCount msgs a : ℚ) / ((concreteCount msgs a + vagueCount msgs a : Nat) : ℚ)

/-- `SabotageDetector._get_rule_based_scores`, per agent: the weighted sum
with weights tool `0.25`, timing `0.30`, message `0.20`, information `0.25`. -/
def ruleScore (sqrtQ : ℚ → ℚ) (msgs : List DMsg) (tu : List ToolUse) (a : String) : ℚ :=
  toolScore tu a * (1 / 4) + timingScore msgs a * (3 / 10) +
    msgScore sqrtQ msgs a * (1 / 5) + infoScore msgs a * (1 / 4)

/-- The `{agent: score}` dictionary as an ordered association list. -/
def ruleScoreItems (sqrtQ : ℚ → ℚ) (msgs : List DMsg) (tu : List ToolUse)
    (agents : List String) : List (String × ℚ) :=
  (pyDedup agents).map fun a => (a, ruleScore sqrtQ msgs tu a)

/-- One step of a stable descending insertion sort: an element moves ahead
only past strictly smaller scores, so equal scores keep their original
order. -/
def insertDesc (x : String × ℚ) : List (String × ℚ) → List (String × ℚ)
  | [] => [x]
  | y :: l => if y.2 ≤ x.2 then x :: y :: l else y :: insertDesc x l

/-- Stable sort by score descending.  Python's `sorted(items, key=score,
reverse=True)` is a stable sort under this comparison, and every stable sort
computes the same list, so an insertion sort is a faithful model. -/
def sortDesc : List (String × ℚ) → List (String × ℚ)
  | [] => []
  | x :: l => insertDesc x (sortDesc l)

/-- `SabotageDetector.get_top_suspects`: sort the score items by score
descending and keep the first `n`. -/
def get_top_suspects (scores : List (String × ℚ)) (n : Nat) : List (String × ℚ) :=
  (sortDesc scores).take n

/-- `SabotageDetector.suggest_mole`; `none` models the `IndexError` raised on
an empty score dictionary. -/
def suggest_mole (scores : List (String × ℚ)) : Option (String × ℚ) :=
  (get_top_suspects scores 1).head?

/-- `SabotageDetector._get_llm_scores`.  The external call together with the
response parsing is modelled by `llmResult`: `none` is any raised-and-caught
failure (connection error, timeout, unparsable output), `some raw` the
successfully parsed JSON object.  On failure the rule scores are returned
unchanged; on success each agent's entry is read with default `0.0` and
clamped to `[0, 1]`. -/
def getLlmScores (llmResult : Option (List (String × ℚ))) (agents : List String)
    (ruleScores : List (String × ℚ)) : List (String × ℚ) :=
  match llmResult with
  | none => ruleScores
  | some raw => (pyDedup agents).map fun a => (a, max 0 (min 1 ((getKey raw a).getD 0)))

/-- `SabotageDetector.analyze_session`: the rule scores, fused with the
external judgment (weights `0.6` rule / `0.4` judgment) when `use_llm` is
set and at least one message is present.  The returned dictionary holds the
scores and nothing else. -/
def analyze_session (use_llm : Bool) (llmResult : Option (List (String × ℚ)))
    (sqrtQ : ℚ → ℚ) (msgs : List DMsg) (tu : List ToolUse) (agents : List String) :
    List (String × ℚ) :=
  let rule := ruleScoreItems sqrtQ msgs tu agents
  if use_llm && !msgs.isEmpty then
    let llm := getLlmScores llmResult agents rule
    (pyDedup agents).map fun a =>
      (a, (getKey rule a).getD 0 * (3 / 5) + (getKey llm a).getD 0 * (2 / 5))
  else rule

/-! ### Concrete states used by witnesses and counterexamples -/

/-- A controller with one running session `s1` (participants alice, bob,
draws fixed to mole alice / pattern timing-errors). -/
def demoC : Controller := (start_session Controller.init "s1" ["alice", "bob"] 0 0).1

/-- The session record `start_session` stores for `demoC`. -/
def demoSession : Session :=
  { status := .running, agents := ["alice", "bob"], current_turn := 0, mole := some "alice"
    sabotage_pattern := some .timing_errors, detected_mole := none, game_outcome := none
    sabotage_severities := [] }

/-- `demoC` after `pause_session` (status paused, pause flag set). -/
def demoPaused : Controller := (pause_session demoC "s1").1

/-- `demoC` paused and with one command queued: a state a duplicate
`start_session` call will silently wipe. -/
def demoBusy : Controller :=
  (send_command (pause_session demoC "s1").1 "s1" "alice" "hold position").1

/-- `demoC` after two commands were sent. -/
def demoQueued : Controller :=
  (send_command (send_command demoC "s1" "alice" "open vault").1 "s1" "bob" "drive").1

/-- `demoQueued` after the first command was marked executed. -/
def demoMarked : Controller := (mark_command_executed demoQueued "s1" 0).1

/-- `demoC` after `complete_session(success=True)`. -/
def demoDone : Controller := (complete_session demoC "s1" true).1

/-- `demoC` paused and then completed, without an intervening resume. -/
def demoPausedDone : Controller :=
  (complete_session (pause_session demoC "s1").1 "s1" true).1

/-- `demoC` after the user marked bob as the detected mole. -/
def demoGuessed : Controller := (set_detected_mole demoC "s1" "bob").1

/-- An engine with one running game `g1` (mole alice). -/
def demoEngine : Engine := (start_game ⟨[]⟩ "g1" ["alice", "bob"] 0 0).1

/-- `demoEngine` after a wrong guess ended the game (outcome failure). -/
def demoEngineDone : Engine := (submit_detection demoEngine "g1" "bob").1

/-- A message packing one timing keyword, two contradiction keywords and all
six hesitation markers into a single utterance. -/
def cexMsg : DMsg := ⟨some "saboteur", "hmm uh um wait let me think actually"⟩

/-- The participants of the detector counterexample session. -/
def cexAgents : List String := ["saboteur", "ally"]

/-- The §3 spec invariant, on raw registry/flag tables: the pause flag read
with default `False` is true exactly for sessions whose status is paused. -/
def FlagInvL (sessions : List (String × Session)) (flags : List (String × Bool)) : Prop :=
  ∀ sid s, getKey sessions sid = some s →
    ((getKey flags sid).getD false = true ↔ s.status = .paused)

/-- The pause-flag invariant of a controller state. -/
def FlagInv (c : Controller) : Prop := FlagInvL c.active_sessions c.pause_flags

/-! ### Association-list lemmas -/

theorem getKey_setKey_self {β : Type} (l : List (String × β)) (k : String) (v : β) :
    getKey (setKey l k v) k = some v := by
  induction l with
  | nil => simp [setKey, getKey]
  | cons p l ih =>
    by_cases h : p.1 = k
    · simp [setKey, h, getKey]
    · simp [setKey, h, getKey, ih]

theorem getKey_setKey_ne {β : Type} (l : List (String × β)) (k k' : String) (v : β)
    (h : k' ≠ k) : getKey (setKey l k v) k' = getKey l k' := by
  induction l with
  | nil => simp [setKey, getKey, Ne.symm h]
  | cons p l ih =>
    by_cases hp : p.1 = k
    · subst hp
      simp [setKey, getKey, Ne.symm h]
    · by_cases hp' : p.1 = k'
      · simp [setKey, getKey, hp, hp', h]
      · simp [setKey, getKey, hp, hp', ih]

theorem setExecutedAt_length (q : List Command) (n : Nat) :
    (setExecutedAt q n).length = q.length := by
  induction q generalizing n with
  | nil => rfl
  | cons cmd q ih =>
    cases n with
    | zero => rfl
    | succ n => simpa [setExecutedAt] using ih n

theorem setExecutedAt_getD_self (q : List Command) (n : Nat) (h : n < q.length) :
    (setExecutedAt q n).getD n noCommand = { q.getD n noCommand with executed := true } := by
  induction q generalizing n with
  | nil => simp at h
  | cons cmd q ih =>
    cases n with
    | zero => rfl
    | succ n => simpa [setExecutedAt] using ih n (by simpa using h)

theorem setExecutedAt_getD_ne (q : List Command) (n j : Nat) (h : j ≠ n) :
    (setExecutedAt q n).getD j noCommand = q.getD j noCommand := by
  induction q generalizing n j with
  | nil => rfl
  | cons cmd q ih =>
    cases n with
    | zero =>
      cases j with
      | zero => exact absurd rfl h
      | succ j => rfl
    | succ n =>
      cases j with
      | zero => rfl
      | succ j => simpa [setExecutedAt] using ih n j (by omega)

theorem getD_mem_of_lt {α : Type} (l : List α) (k : Nat) (d : α) (h : k < l.length) :
    l.getD k d ∈ l := by
  induction l generalizing k with
  | nil => simp at h
  | cons a l ih =>
    cases k with
    | zero => exact List.mem_cons_self _ _
    | succ k => exact List.mem_cons_of_mem _ (ih k (by simpa using h))

theorem flagInvL_set_both {L : List (String × Session)} {F : List (String × Bool)}
    (hc : FlagInvL L F) (sid : String) (s : Session) (f : Bool)
    (hf : f = true ↔ s.status = .paused) : FlagInvL (setKey L sid s) (setKey F sid f) := by
  intro sid' s' h'
  by_cases he : sid' = sid
  · subst he
    rw [getKey_setKey_self] at h'
    rw [getKey_setKey_self]
    injection h' with h''
    subst h''
    simpa using hf
  · rw [getKey_setKey_ne _ _ _ _ he] at h'
    rw [getKey_setKey_ne _ _ _ _ he]
    exact hc sid' s' h'

theorem flagInvL_set_session {L : List (String × Session)} {F : List (String × Bool)}
    (hc : FlagInvL L F) (sid : String) (s s' : Session)
    (hold : getKey L sid = some s) (hst : s'.status = s.status) :
    FlagInvL (setKey L sid s') F := by
  intro sid' t h'
  by_cases he : sid' = sid
  · rw [he] at h' ⊢
    rw [getKey_setKey_self] at h'
    injection h' with h''
    subst h''
    rw [hst]
    exact hc sid s hold
  · rw [getKey_setKey_ne _ _ _ _ he] at h'
    exact hc sid' t h'

/-- What `start_session` stores for the started id, whatever was there
before: a pattern accompanies the mole exactly when the drawn participant
name is truthy (non-empty). -/
theorem getKey_start_session (c : Controller) (sid : String) (agents : List String)
    (mi pi : Nat) :
    getKey (start_session c sid agents mi pi).1.active_sessions sid =
      some { status := .running, agents := agents, current_turn := 0
             mole := if agents.length > 0 then some (agents.getD (mi % agents.length) "") else none
             sabotage_pattern :=
               if agents.length > 0 ∧ agents.getD (mi % agents.length) "" ≠ "" then
                 some (patternCatalog.getD (pi % 5) .timing_errors)
               else none
             detected_mole := none, game_outcome := none, sabotage_severities := [] } := by
  simp only [start_session]
  rw [getKey_setKey_self]
  refine congrArg some ?_
  congr 1
  by_cases h : agents.length > 0
  · rw [if_pos h]
    by_cases hm : agents.getD (mi % agents.length) "" = ""
    · rw [hm]
      exact (if_neg fun hc => hc.2 rfl).symm
    · have hie : (agents.getD (mi % agents.length) "").isEmpty = false := by
        cases hb : (agents.getD (mi % agents.length) "").isEmpty
        · rfl
        · exact absurd ((String.isEmpty_iff _).mp hb) hm
      rw [show truthyStr (some (agents.getD (mi % agents.length) "")) = true from by
        show (!(agents.getD (mi % agents.length) "").isEmpty) = true
        rw [hie]
        rfl]
      exact (if_pos ⟨h, hm⟩).symm
  · rw [if_neg h]
    exact (if_neg fun hc => h hc.1).symm

/-! ### Claims about the session registry and command channel -/

/-- C1 (amended): pause succeeds only from `running` and resume only from
`paused`, any other pause/resume attempt returns an error result and leaves
the controller unchanged; `complete_session`, however, accepts every
existing session regardless of its current status — including `completed`
and `failed` — and overwrites the status. -/
theorem C1_amended_transition_discipline (c : Controller) (sid : String) (s : Session)
    (hs : getKey c.active_sessions sid = some s) :
    (s.status ≠ .running → pause_session c sid = (c, .error .sessionNotRunning)) ∧
    (s.status = .running →
      (pause_session c sid).2 = .ok .paused ∧
      getKey (pause_session c sid).1.active_sessions sid = some { s with status := .paused }) ∧
    (s.status ≠ .paused → resume_session c sid = (c, .error .sessionNotPaused)) ∧
    (s.status = .paused →
      (resume_session c sid).2 = .ok .running ∧
      getKey (resume_session c sid).1.active_sessions sid = some { s with status := .running }) ∧
    (∀ b : Bool,
      (complete_session c sid b).2 = .ok (if b then .completed else .failed) ∧
      getKey (complete_session c sid b).1.active_sessions sid =
        some { s with status := if b then .completed else .failed }) := by
  refine ⟨?_, ?_, ?_, ?_, ?_⟩
  · intro h; simp [pause_session, hs, h]
  · intro h; simp [pause_session, hs, h, getKey_setKey_self]
  · intro h; simp [resume_session, hs, h]
  · intro h; simp [resume_session, hs, h, getKey_setKey_self]
  · intro b; simp [complete_session, hs, getKey_setKey_self]

/-- Witness for C1: on a session already completed, pause is rejected with
the state unchanged, while a second completion is accepted and flips the
terminal status to `failed`. -/
theorem C1_amended_witness :
    pause_session demoDone "s1" = (demoDone, .error .sessionNotRunning) ∧
    (complete_session demoDone "s1" false).2 = .ok .failed := by
  have h := C1_amended_transition_discipline demoDone "s1"
    { demoSession with status := .completed } (by decide)
  refine ⟨h.1 (by decide), ?_⟩
  simpa using (h.2.2.2.2 false).1

/-- C1 (counterexample): completing an already-completed session is not
rejected — the call returns a success result and overwrites the terminal
status `completed` with `failed`. -/
theorem C1_counterexample_complete_overwrites_terminal :
    (getKey demoDone.active_sessions "s1").map Session.status = some .completed ∧
    (complete_session demoDone "s1" false).2 = .ok .failed ∧
    (getKey (complete_session demoDone "s1" false).1.active_sessions "s1").map Session.status =
      some .failed := by
  decide

/-- C2 (amended): `start_session` never checks for a duplicate id — it
always reports success and reinitializes the session record (the fresh mole
drawn from the participant list, with a catalog pattern exactly when the
drawn name is truthy), command queue and pause flag, silently overwriting
whatever state the id held before. -/
theorem C2_amended_start_reinitializes (c : Controller) (sid : String)
    (agents : List String) (mi pi : Nat) :
    (start_session c sid agents mi pi).2.success = true ∧
    getKey (start_session c sid agents mi pi).1.active_sessions sid =
      some { status := .running, agents := agents, current_turn := 0
             mole := if agents.length > 0 then some (agents.getD (mi % agents.length) "") else none
             sabotage_pattern :=
               if agents.length > 0 ∧ agents.getD (mi % agents.length) "" ≠ "" then
                 some (patternCatalog.getD (pi % 5) .timing_errors)
               else none
             detected_mole := none, game_outcome := none, sabotage_severities := [] } ∧
    getKey (start_session c sid agents mi pi).1.command_queue sid = some [] ∧
    getKey (start_session c sid agents mi pi).1.pause_flags sid = some false := by
  refine ⟨rfl, getKey_start_session c sid agents mi pi, ?_, ?_⟩
  · simp [start_session, getKey_setKey_self]
  · simp [start_session, getKey_setKey_self]

/-- C2 (counterexample): starting a session whose id already exists (here
paused, with one queued command) does not fail with any `AlreadyExists`
error — it succeeds and resets status, participants, mole assignment,
command queue and pause flag. -/
theorem C2_counterexample_duplicate_start_overwrites :
    (getKey demoBusy.active_sessions "s1").map Session.status = some .paused ∧
    getKey demoBusy.command_queue "s1" = some [⟨"alice", "hold position", false⟩] ∧
    (start_session demoBusy "s1" ["carol"] 0 0).2.success = true ∧
    getKey (start_session demoBusy "s1" ["carol"] 0 0).1.active_sessions "s1" =
      some { status := .running, agents := ["carol"], current_turn := 0, mole := some "carol"
             sabotage_pattern := some .timing_errors, detected_mole := none, game_outcome := none
             sabotage_severities := [] } ∧
    getKey (start_session demoBusy "s1" ["carol"] 0 0).1.command_queue "s1" = some [] ∧
    getKey (start_session demoBusy "s1" ["carol"] 0 0).1.pause_flags "s1" = some false := by
  decide

/-- C3 (amended): start, pause, resume and update_turn all preserve the
equivalence between the pause flag and the `paused` status, but
`complete_session` never clears the flag: completing a paused session
leaves `is_paused` returning `true` while the status is terminal. -/
theorem C3_amended_flag_invariant (c : Controller) (hc : FlagInv c) :
    (∀ sid agents mi pi, FlagInv (start_session c sid agents mi pi).1) ∧
    (∀ sid, FlagInv (pause_session c sid).1) ∧
    (∀ sid, FlagInv (resume_session c sid).1) ∧
    (∀ sid n, FlagInv (update_turn c sid n).1) ∧
    (∀ sid s b, getKey c.active_sessions sid = some s → s.status = .paused →
      is_paused (complete_session c sid b).1 sid = true ∧
      (getKey (complete_session c sid b).1.active_sessions sid).map Session.status =
        some (if b then .completed else .failed)) := by
  refine ⟨?_, ?_, ?_, ?_, ?_⟩
  · intro sid agents mi pi
    exact flagInvL_set_both hc sid _ false (by simp)
  · intro sid
    cases h : getKey c.active_sessions sid with
    | none => simpa [FlagInv, pause_session, h] using hc
    | some s =>
      by_cases hst : s.status = HeistStatus.running
      · have : ¬ (s.status ≠ HeistStatus.running) := by simp [hst]
        simp only [FlagInv, pause_session, h, if_neg this]
        exact flagInvL_set_both hc sid _ true (by simp)
      · simpa [FlagInv, pause_session, h, if_pos hst] using hc
  · intro sid
    cases h : getKey c.active_sessions sid with
    | none => simpa [FlagInv, resume_session, h] using hc
    | some s =>
      by_cases hst : s.status = HeistStatus.paused
      · have : ¬ (s.status ≠ HeistStatus.paused) := by simp [hst]
        simp only [FlagInv, resume_session, h, if_neg this]
        exact flagInvL_set_both hc sid _ false (by simp)
      · simpa [FlagInv, resume_session, h, if_pos hst] using hc
  · intro sid n
    cases h : getKey c.active_sessions sid with
    | none => simpa [FlagInv, update_turn, h] using hc
    | some s =>
      simp only [FlagInv, update_turn, h]
      exact flagInvL_set_session hc sid s _ h rfl
  · intro sid s b hs hp
    constructor
    · have hflag : (getKey c.pause_flags sid).getD false = true := (hc sid s hs).mpr hp
      simpa [complete_session, hs, is_paused] using hflag
    · simp [complete_session, hs, getKey_setKey_self]

/-- Witness for C3: the invariant holds of the concrete paused state, and
completing that paused session leaves the pause flag set. -/
theorem C3_amended_witness :
    is_paused (complete_session demoPaused "s1" true).1 "s1" = true ∧
    (getKey (complete_session demoPaused "s1" true).1.active_sessions "s1").map Session.status =
      some .completed := by
  have hc : FlagInv demoPaused := by
    intro sid s h
    have e1 : demoPaused.active_sessions = [("s1", { demoSession with status := .paused })] := by
      decide
    have e2 : demoPaused.pause_flags = [("s1", true)] := by decide
    rw [e1] at h
    simp only [getKey] at h
    rw [e2]
    by_cases he : "s1" = sid
    · rw [if_pos he] at h
      injection h with h'
      subst h'
      subst he
      simp [getKey]
    · rw [if_neg he] at h
      exact absurd h (by simp)
  have h := (C3_amended_flag_invariant demoPaused hc).2.2.2.2 "s1"
    { demoSession with status := .paused } true (by decide) (by decide)
  simpa using h

/-- C3 (counterexample): after pausing and then completing a session, the
status is `completed` but `is_paused` still returns `true`, violating the
claimed equivalence. -/
theorem C3_counterexample_pause_flag_after_complete :
    (getKey demoPausedDone.active_sessions "s1").map Session.status = some .completed ∧
    is_paused demoPausedDone "s1" = true := by
  decide

/-- C4 (amended): with a (non-empty) agent filter, `get_pending_commands`
returns exactly the undelivered commands of that agent in original order, so
a command marked delivered never reappears in a filtered result; without a
filter, however, it returns the entire queue, delivered commands included. -/
theorem C4_amended_pending_filter (c : Controller) (sid : String) (q : List Command)
    (a : String) (hq : getKey c.command_queue sid = some q) (ha : a ≠ "") :
    get_pending_commands c sid (some a) =
      q.filter (fun cmd => cmd.agent == a && !cmd.executed) ∧
    (∀ cmd ∈ get_pending_commands c sid (some a), cmd.executed = false ∧ cmd.agent = a) ∧
    get_pending_commands c sid none = q := by
  have hflt : get_pending_commands c sid (some a) =
      q.filter (fun cmd => cmd.agent == a && !cmd.executed) := by
    simp [get_pending_commands, hq, ha]
  refine ⟨hflt, ?_, by simp [get_pending_commands, hq]⟩
  intro cmd hm
  rw [hflt] at hm
  rcases List.mem_filter.mp hm with ⟨-, h2⟩
  simp only [Bool.and_eq_true, beq_iff_eq, Bool.not_eq_true'] at h2
  exact ⟨h2.2, h2.1⟩

/-- Witness for C4: on the concrete queue with one delivered and one pending
command, the filtered view shows only bob's pending command while the
unfiltered view still contains the delivered one. -/
theorem C4_amended_witness :
    get_pending_commands demoMarked "s1" (some "bob") = [⟨"bob", "drive", false⟩] ∧
    get_pending_commands demoMarked "s1" none =
      [⟨"alice", "open vault", true⟩, ⟨"bob", "drive", false⟩] := by
  have h := C4_amended_pending_filter demoMarked "s1"
    [⟨"alice", "open vault", true⟩, ⟨"bob", "drive", false⟩] "bob" (by decide) (by decide)
  refine ⟨?_, h.2.2⟩
  rw [h.1]
  decide

/-- C4 (counterexample): after `mark_command_executed` on alice's command,
the unfiltered `get_pending_commands` still returns it (with
`executed = True`), so the unfiltered result is not the delivered=false
subsequence and a delivered command does reappear. -/
theorem C4_counterexample_unfiltered_includes_delivered :
    get_pending_commands demoMarked "s1" none =
      [⟨"alice", "open vault", true⟩, ⟨"bob", "drive", false⟩] ∧
    ((get_pending_commands demoMarked "s1" none).any fun cmd => cmd.executed) = true ∧
    get_pending_commands demoMarked "s1" (some "alice") = [] := by
  decide

/-- C5 (amended): an index at or above the queue length fails with the
out-of-range error and changes nothing, and a valid nonnegative index marks
exactly that position; but a negative index is not rejected: down to `-n` it
marks the command at `n + i` (Python indexing from the end), and below `-n`
it raises an uncaught `IndexError` instead of returning the error result. -/
theorem C5_amended_mark_index_semantics (c : Controller) (sid : String) (q : List Command)
    (hq : getKey c.command_queue sid = some q) :
    (∀ i : Int, (q.length : Int) ≤ i → mark_command_executed c sid i = (c, .errOutOfRange)) ∧
    (∀ i : Int, 0 ≤ i → i < (q.length : Int) →
      (mark_command_executed c sid i).2 = .ok ∧
      getKey (mark_command_executed c sid i).1.command_queue sid =
        some (setExecutedAt q i.toNat)) ∧
    (∀ i : Int, -(q.length : Int) ≤ i → i < 0 →
      (mark_command_executed c sid i).2 = .ok ∧
      getKey (mark_command_executed c sid i).1.command_queue sid =
        some (setExecutedAt q (i + q.length).toNat)) ∧
    (∀ i : Int, i < -(q.length : Int) → mark_command_executed c sid i = (c, .raisedIndexError)) ∧
    (∀ n : Nat, n < q.length →
      (setExecutedAt q n).length = q.length ∧
      (setExecutedAt q n).getD n noCommand = { q.getD n noCommand with executed := true } ∧
      ∀ j : Nat, j ≠ n → (setExecutedAt q n).getD j noCommand = q.getD j noCommand) := by
  refine ⟨?_, ?_, ?_, ?_, ?_⟩
  · intro i h
    simp [mark_command_executed, hq, h]
  · intro i h0 hlt
    have hnle : ¬ ((q.length : Int) ≤ i) := by omega
    have hge : i ≥ 0 := h0
    have hnlt : ¬ (i < 0) := by omega
    simp [mark_command_executed, hq, hnle, hge, hnlt, getKey_setKey_self]
  · intro i hlo hneg
    have hnle : ¬ ((q.length : Int) ≤ i) := by omega
    have hnge : ¬ (i ≥ 0) := by omega
    have hnlt : ¬ (i + (q.length : Int) < 0) := by omega
    simp [mark_command_executed, hq, hnle, hnge, hnlt, getKey_setKey_self]
  · intro i h
    have hnle : ¬ ((q.length : Int) ≤ i) := by omega
    have hnge : ¬ (i ≥ 0) := by omega
    have hlt : i + (q.length : Int) < 0 := by omega
    simp [mark_command_executed, hq, hnle, hnge, hlt]
  · intro n hn
    exact ⟨setExecutedAt_length q n, setExecutedAt_getD_self q n hn,
      fun j hj => setExecutedAt_getD_ne q n j hj⟩

/-- Witness for C5: on the two-command queue, index 5 is rejected, indices 0
and -1 are accepted, and index -3 raises `IndexError`. -/
theorem C5_amended_witness :
    mark_command_executed demoQueued "s1" 5 = (demoQueued, .errOutOfRange) ∧
    (mark_command_executed demoQueued "s1" 0).2 = .ok ∧
    (mark_command_executed demoQueued "s1" (-1)).2 = .ok ∧
    mark_command_executed demoQueued "s1" (-3) = (demoQueued, .raisedIndexError) := by
  have h := C5_amended_mark_index_semantics demoQueued "s1"
    [⟨"alice", "open vault", false⟩, ⟨"bob", "drive", false⟩] (by decide)
  exact ⟨h.1 5 (by decide), (h.2.1 0 (by decide) (by decide)).1,
    (h.2.2.1 (-1) (by decide) (by decide)).1, h.2.2.2.1 (-3) (by decide)⟩

/-- C5 (counterexample): index -1 on a two-command queue is not rejected as
out of range — the call reports success and flips the delivered flag of the
last command. -/
theorem C5_counterexample_negative_index_accepted :
    (mark_command_executed demoQueued "s1" (-1)).2 = .ok ∧
    getKey (mark_command_executed demoQueued "s1" (-1)).1.command_queue "s1" =
      some [⟨"alice", "open vault", false⟩, ⟨"bob", "drive", true⟩] := by
  decide

/-- C10 (confirmed): `send_command` checks only that the session id exists.
For any existing session it succeeds and appends the command — for every
agent string, member of the participant list or not, and in every status,
paused, completed and failed included (the status is never read); the sole
failure case is an unknown session id. -/
theorem C10_send_command_only_checks_session (c : Controller) (sid agent text : String) :
    (∀ s, getKey c.active_sessions sid = some s →
      (send_command c sid agent text).2 = .ok () ∧
      getKey (send_command c sid agent text).1.command_queue sid =
        some ((getKey c.command_queue sid).getD [] ++ [⟨agent, text, false⟩]) ∧
      (send_command c sid agent text).1.active_sessions = c.active_sessions ∧
      (send_command c sid agent text).1.pause_flags = c.pause_flags) ∧
    (getKey c.active_sessions sid = none →
      send_command c sid agent text = (c, .error .sessionNotFound)) := by
  constructor
  · intro s hs
    simp [send_command, hs, getKey_setKey_self]
  · intro hs
    simp [send_command, hs]

/-- Witness for C10: sending a command for an agent that is not a
participant, on a session that is completed, still succeeds and appends. -/
theorem C10_witness :
    (send_command demoDone "s1" "ghost" "go").2 = .ok () ∧
    getKey (send_command demoDone "s1" "ghost" "go").1.command_queue "s1" =
      some ((getKey demoDone.command_queue "s1").getD [] ++ [⟨"ghost", "go", false⟩]) ∧
    (send_command demoDone "s1" "ghost" "go").1.active_sessions = demoDone.active_sessions ∧
    (send_command demoDone "s1" "ghost" "go").1.pause_flags = demoDone.pause_flags :=
  (C10_send_command_only_checks_session demoDone "s1" "ghost" "go").1
    { demoSession with status := .completed } (by decide)

/-- C9 (amended): `evaluate_detection` never freezes anything — every call
recomputes the classification from the session's current guess, so two
calls with no intervening change agree, but a guess submitted between two
calls changes the second result; the freezing behaviour exists only in the
game engine's `submit_detection`, which returns the stored outcome
unchanged once it is set. -/
theorem C9_amended_evaluate_recomputes (c : Controller) (sid : String) (s : Session)
    (hs : getKey c.active_sessions sid = some s) :
    ((evaluate_detection c sid).2 = .ok
      { outcome := classify s.mole s.detected_mole, actual_mole := s.mole
        detected_mole := s.detected_mole, sabotage_score := s.sabotage_severities.sum }) ∧
    ((evaluate_detection (evaluate_detection c sid).1 sid).2.map EvalRes.outcome =
      .ok (classify s.mole s.detected_mole)) ∧
    (∀ g, (evaluate_detection (set_detected_mole (evaluate_detection c sid).1 sid g).1 sid).2.map
        EvalRes.outcome =
      .ok (if s.mole = some g then GameOutcome.success else .failure)) ∧
    (∀ (e : Engine) (gid : String) (gm : Game) (o : GameOutcome) (guess : String),
      getKey e.games gid = some gm → gm.outcome = some o →
      submit_detection e gid guess =
        (e, .ok { outcome := o, actual_mole := gm.mole, detected_mole := gm.detected_mole })) := by
  refine ⟨?_, ?_, ?_, ?_⟩
  · simp [evaluate_detection, hs]
  · simp [evaluate_detection, hs, getKey_setKey_self, Except.map]
  · intro g
    simp [evaluate_detection, set_detected_mole, hs, getKey_setKey_self, Except.map, classify]
  · intro e gid gm o guess hg ho
    simp [submit_detection, hg, ho]

/-- Witness for C9: in the concrete session with mole alice and guess bob,
the first evaluation reports failure, and a corrected guess between calls
makes the next evaluation report success; the concrete engine game with a
stored outcome returns it frozen. -/
theorem C9_amended_witness :
    (evaluate_detection demoGuessed "s1").2 = .ok
      { outcome := .failure, actual_mole := some "alice", detected_mole := some "bob"
        sabotage_score := 0 } ∧
    (evaluate_detection (set_detected_mole (evaluate_detection demoGuessed "s1").1 "s1"
        "alice").1 "s1").2.map EvalRes.outcome = .ok GameOutcome.success ∧
    submit_detection demoEngineDone "g1" "alice" =
      (demoEngineDone, .ok { outcome := .failure, actual_mole := "alice"
                             detected_mole := some "bob" }) := by
  have h := C9_amended_evaluate_recomputes demoGuessed "s1"
    { demoSession with detected_mole := some "bob" } (by decide)
  refine ⟨by simpa using h.1, by simpa using h.2.2.1 "alice", ?_⟩
  exact h.2.2.2 demoEngineDone "g1"
    { agents := ["alice", "bob"], mole := "alice", sabotage_pattern := .timing_errors
      detected_mole := some "bob", outcome := some .failure } .failure "alice"
    (by decide) (by decide)

/-- C9 (counterexample): calling evaluate, submitting a new guess, and
calling evaluate again yields a different outcome — the first result is not
frozen: the outcome flips from failure to success. -/
theorem C9_counterexample_reevaluation_changes :
    (evaluate_detection demoGuessed "s1").2.map EvalRes.outcome = .ok GameOutcome.failure ∧
    (evaluate_detection (set_detected_mole (evaluate_detection demoGuessed "s1").1 "s1"
        "alice").1 "s1").2.map EvalRes.outcome = .ok GameOutcome.success := by
  decide

/-- C6 (amended): `HeistController.start_session` assigns a mole whenever
the participant list is non-empty — including a single-participant session —
together with a strategy from the five-pattern catalog exactly when the
drawn participant name is truthy (the `if mole` guard of the source leaves
the pattern `None` for a drawn empty-string name); the assignment is null
only for an empty list.  The stricter threshold of the claim exists only in
`MoleGameEngine.start_game`, which rejects fewer than two agents with an
error result and stores nothing. -/
theorem C6_amended_assignment_threshold (c : Controller) (e : Engine) (sid : String)
    (agents : List String) (mi pi : Nat) :
    ((start_session c sid agents mi pi).2.mole_selected = true ↔ agents ≠ []) ∧
    (agents ≠ [] →
      ∀ s, getKey (start_session c sid agents mi pi).1.active_sessions sid = some s →
        (∃ m ∈ agents, s.mole = some m) ∧
        (∀ m, s.mole = some m → m ≠ "" →
          ∃ p ∈ patternCatalog, s.sabotage_pattern = some p) ∧
        (∀ m, s.mole = some m → m = "" → s.sabotage_pattern = none)) ∧
    (agents = [] →
      ∀ s, getKey (start_session c sid agents mi pi).1.active_sessions sid = some s →
        s.mole = none ∧ s.sabotage_pattern = none) ∧
    (agents.length < 2 → start_game e sid agents mi pi = (e, false)) ∧
    (2 ≤ agents.length →
      (start_game e sid agents mi pi).2 = true ∧
      ∀ g, getKey (start_game e sid agents mi pi).1.games sid = some g →
        g.mole ∈ agents ∧ g.sabotage_pattern ∈ patternCatalog) := by
  have hcat : ∀ k : Nat, patternCatalog.getD (k % 5) .timing_errors ∈ patternCatalog :=
    fun k => getD_mem_of_lt _ _ _ (by simpa [patternCatalog] using Nat.mod_lt k (by omega))
  refine ⟨?_, ?_, ?_, ?_, ?_⟩
  · constructor
    · intro h hnil
      subst hnil
      simp [start_session] at h
    · intro hne
      have hlen : agents.length > 0 := List.length_pos.mpr hne
      simp [start_session, hlen]
  · intro hne s hsk
    have hlen : agents.length > 0 := List.length_pos.mpr hne
    rw [getKey_start_session c sid agents mi pi] at hsk
    injection hsk with hsk
    subst hsk
    refine ⟨⟨agents.getD (mi % agents.length) "", ?_, by simp [hlen]⟩, ?_, ?_⟩
    · exact getD_mem_of_lt _ _ _ (Nat.mod_lt mi hlen)
    · intro m hm hm'
      dsimp only at hm
      rw [if_pos hlen] at hm
      injection hm with hm
      subst hm
      refine ⟨patternCatalog.getD (pi % 5) .timing_errors, hcat pi, ?_⟩
      dsimp only
      rw [if_pos ⟨hlen, hm'⟩]
    · intro m hm hm''
      dsimp only at hm
      rw [if_pos hlen] at hm
      injection hm with hm
      subst hm
      dsimp only
      rw [if_neg (fun hc => hc.2 hm'')]
  · intro hnil s hsk
    subst hnil
    rw [getKey_start_session c sid [] mi pi] at hsk
    injection hsk with hsk
    subst hsk
    simp
  · intro h
    have hcond : (agents.isEmpty || decide (agents.length < 2)) = true := by
      rw [Bool.or_eq_true]
      exact Or.inr (decide_eq_true h)
    simp [start_game, hcond]
  · intro h
    have hcond : (agents.isEmpty || decide (agents.length < 2)) = false := by
      cases agents with
      | nil => simp at h
      | cons a l =>
        simp only [List.isEmpty_cons, Bool.false_or, decide_eq_false_iff_not]
        omega
    constructor
    · simp [start_game, hcond]
    · intro g hg
      have h1 : (start_game e sid agents mi pi).1 =
          ⟨setKey e.games sid
            { agents := agents, mole := agents.getD (mi % agents.length) ""
              sabotage_pattern := patternCatalog.getD (pi % 5) .timing_errors
              detected_mole := none, outcome := none }⟩ := by
        simp [start_game, hcond]
      rw [h1, getKey_setKey_self] at hg
      injection hg with hg
      subst hg
      exact ⟨getD_mem_of_lt _ _ _ (Nat.mod_lt mi (by omega)), hcat pi⟩

/-- Witness for C6: with the single participant alice the controller does
assign a mole, while the engine rejects the same list; with two
participants both assign. -/
theorem C6_amended_witness :
    ((start_session Controller.init "solo" ["alice"] 0 0).2.mole_selected = true ↔
      (["alice"] : List String) ≠ []) ∧
    start_game ⟨[]⟩ "solo" ["alice"] 0 0 = (⟨[]⟩, false) ∧
    (start_game ⟨[]⟩ "duo" ["alice", "bob"] 0 0).2 = true := by
  refine ⟨(C6_amended_assignment_threshold Controller.init ⟨[]⟩ "solo" ["alice"] 0 0).1, ?_, ?_⟩
  · exact (C6_amended_assignment_threshold Controller.init ⟨[]⟩ "solo" ["alice"] 0 0).2.2.2.1
      (by decide)
  · exact ((C6_amended_assignment_threshold Controller.init ⟨[]⟩ "duo" ["alice", "bob"] 0
      0).2.2.2.2 (by decide)).1

/-! ### Detection-engine lemmas -/

theorem successRate_nonneg (tu : List ToolUse) (a : String) : 0 ≤ successRate tu a := by
  unfold successRate
  positivity

theorem toolScore_nonneg (tu : List ToolUse) (a : String) : 0 ≤ toolScore tu a := by
  unfold toolScore
  split
  · exact le_refl 0
  · split
    · rename_i hne h
      have hr := successRate_nonneg tu a
      have havg : 0 < avgSuccessRate tu := lt_of_le_of_lt hr h
      refine le_min ?_ (by norm_num)
      exact mul_nonneg (div_nonneg (by linarith) havg.le) (by norm_num)
    · exact le_refl 0

theorem timingScore_nonneg (msgs : List DMsg) (a : String) : 0 ≤ timingScore msgs a := by
  unfold timingScore
  have h1 : (0 : ℚ) ≤
      if maxTiming msgs > 0 then (timingCount msgs a : ℚ) / (maxTiming msgs : ℚ) else 0 := by
    split
    · positivity
    · exact le_refl 0
  have h2 : (0 : ℚ) ≤
      if maxContra msgs > 0 then (contraCount msgs a : ℚ) / (maxContra msgs : ℚ) else 0 := by
    split
    · positivity
    · exact le_refl 0
  exact add_nonneg (mul_nonneg h1 (by norm_num)) (mul_nonneg h2 (by norm_num))

theorem msgBase_nonneg (sqrtQ : ℚ → ℚ) (msgs : List DMsg) (a : String) :
    0 ≤ msgBase sqrtQ msgs a := by
  unfold msgBase
  split
  · rename_i h
    refine le_min ?_ (by norm_num)
    exact div_nonneg (div_nonneg (abs_nonneg _) h.le) (by norm_num)
  · exact le_refl 0

theorem hesFreq_nonneg (msgs : List DMsg) (a : String) : 0 ≤ hesFreq msgs a := by
  unfold hesFreq
  positivity

theorem msgScore_nonneg (sqrtQ : ℚ → ℚ) (msgs : List DMsg) (a : String) :
    0 ≤ msgScore sqrtQ msgs a := by
  unfold msgScore
  split
  · exact le_refl 0
  · split
    · exact le_refl 0
    · exact le_max_of_le_left (msgBase_nonneg sqrtQ msgs a)

theorem infoScore_nonneg (msgs : List DMsg) (a : String) : 0 ≤ infoScore msgs a := by
  unfold infoScore
  split
  · exact le_refl 0
  · positivity

theorem ruleScore_nonneg (sqrtQ : ℚ → ℚ) (msgs : List DMsg) (tu : List ToolUse) (a : String) :
    0 ≤ ruleScore sqrtQ msgs tu a := by
  have t1 := toolScore_nonneg tu a
  have t2 := timingScore_nonneg msgs a
  have t3 := msgScore_nonneg sqrtQ msgs a
  have t4 := infoScore_nonneg msgs a
  unfold ruleScore
  linarith

theorem insertDesc_perm (x : String × ℚ) (l : List (String × ℚ)) :
    (insertDesc x l).Perm (x :: l) := by
  induction l with
  | nil => exact List.Perm.refl _
  | cons y l ih =>
    unfold insertDesc
    split
    · exact List.Perm.refl _
    · exact (List.Perm.cons y ih).trans (List.Perm.swap x y l)

theorem sortDesc_perm (l : List (String × ℚ)) : (sortDesc l).Perm l := by
  induction l with
  | nil => exact List.Perm.refl _
  | cons x l ih => exact (insertDesc_perm x (sortDesc l)).trans (List.Perm.cons x ih)

theorem insertDesc_pairwise (x : String × ℚ) (l : List (String × ℚ))
    (h : l.Pairwise fun p q => q.2 ≤ p.2) :
    (insertDesc x l).Pairwise fun p q => q.2 ≤ p.2 := by
  induction l with
  | nil => simp [insertDesc]
  | cons y l ih =>
    rcases List.pairwise_cons.mp h with ⟨hy, hl⟩
    unfold insertDesc
    split
    · rename_i hle
      refine List.pairwise_cons.mpr ⟨?_, h⟩
      intro q hq
      rcases List.mem_cons.mp hq with rfl | hq'
      · exact hle
      · exact le_trans (hy q hq') hle
    · rename_i hnle
      refine List.pairwise_cons.mpr ⟨?_, ih hl⟩
      intro q hq
      have hq' : q ∈ x :: l := (insertDesc_perm x l).subset hq
      rcases List.mem_cons.mp hq' with rfl | hq''
      · exact le_of_lt (not_le.mp hnle)
      · exact hy q hq''

theorem sortDesc_pairwise (l : List (String × ℚ)) :
    (sortDesc l).Pairwise fun p q => q.2 ≤ p.2 := by
  induction l with
  | nil => simp [sortDesc]
  | cons x l ih => exact insertDesc_pairwise x (sortDesc l) ih

/-- The head of the descending sort is a maximal element of the score list. -/
theorem suggest_mole_spec (scores : List (String × ℚ)) (hne : scores ≠ []) :
    ∃ p, suggest_mole scores = some p ∧ p ∈ scores ∧ ∀ q ∈ scores, q.2 ≤ p.2 := by
  have hperm := sortDesc_perm scores
  obtain ⟨p, tl, heq⟩ : ∃ p tl, sortDesc scores = p :: tl := by
    cases hs : sortDesc scores with
    | nil =>
      rw [hs] at hperm
      exact absurd (List.Perm.eq_nil hperm.symm) hne
    | cons p tl => exact ⟨p, tl, rfl⟩
  refine ⟨p, by simp [suggest_mole, get_top_suspects, heq], ?_, ?_⟩
  · exact hperm.subset (heq ▸ List.mem_cons_self p tl)
  · intro q hq
    have hq' : q ∈ sortDesc scores := hperm.mem_iff.mpr hq
    rw [heq] at hq'
    rcases List.mem_cons.mp hq' with rfl | hq''
    · exact le_refl _
    · have hp := List.pairwise_cons.mp (heq ▸ sortDesc_pairwise scores)
      exact hp.1 q hq''

theorem pyDedup_ne_nil (agents : List String) (h : agents ≠ []) : pyDedup agents ≠ [] := by
  cases agents with
  | nil => exact absurd rfl h
  | cons a l => simp [pyDedup, dedupFrom]

theorem getKey_map_pair {β : Type} (f : String → β) (xs : List String) {a : String}
    (h : a ∈ xs) : getKey (xs.map fun x => (x, f x)) a = some (f a) := by
  induction xs with
  | nil => simp at h
  | cons x xs ih =>
    rcases List.mem_cons.mp h with rfl | h'
    · simp [getKey]
    · by_cases he : x = a
      · subst he
        simp [getKey]
      · simp [getKey, he, ih h']

/-- On a failed or unparsable external call the fused analysis collapses to
the rule scores (`0.6 · r + 0.4 · r = r`). -/
theorem analyze_fallback_eq (sqrtQ : ℚ → ℚ) (msgs : List DMsg) (tu : List ToolUse)
    (agents : List String) :
    analyze_session true none sqrtQ msgs tu agents = ruleScoreItems sqrtQ msgs tu agents := by
  have key : ∀ a ∈ pyDedup agents,
      (a, (getKey (ruleScoreItems sqrtQ msgs tu agents) a).getD 0 * (3 / 5) +
          (getKey (ruleScoreItems sqrtQ msgs tu agents) a).getD 0 * (2 / 5)) =
      (a, ruleScore sqrtQ msgs tu a) := by
    intro a ha
    rw [show getKey (ruleScoreItems sqrtQ msgs tu agents) a =
        some (ruleScore sqrtQ msgs tu a) from getKey_map_pair _ _ ha]
    simp only [Option.getD_some]
    rw [Prod.mk.injEq]
    exact ⟨rfl, by ring⟩
  cases hm : msgs.isEmpty with
  | true => simp [analyze_session, hm]
  | false =>
    simp only [analyze_session, hm, getLlmScores, Bool.not_false, Bool.and_self, if_true]
    exact List.map_congr_left key

/-- With the judgment disabled the analysis is the rule scores verbatim. -/
theorem analyze_noLlm_eq (llmAny : Option (List (String × ℚ))) (sqrtQ : ℚ → ℚ)
    (msgs : List DMsg) (tu : List ToolUse) (agents : List String) :
    analyze_session false llmAny sqrtQ msgs tu agents = ruleScoreItems sqrtQ msgs tu agents := by
  simp [analyze_session]

/-! ### Claims about the sabotage detector -/

/-- C7 (amended): every rule-based suspicion score is nonnegative and the
suggested mole is an agent whose score is maximal (with its score returned
as the confidence) — but the scores are not clamped to `[0, 1]`: the
hesitation component of the message-anomaly signal is uncapped, so combined
scores above `1` occur (see the counterexample, which reaches `3/2`). -/
theorem C7_amended_nonneg_argmax (sqrtQ : ℚ → ℚ) (msgs : List DMsg) (tu : List ToolUse)
    (agents : List String) (hne : agents ≠ []) :
    (∀ a : String, 0 ≤ ruleScore sqrtQ msgs tu a) ∧
    ∃ p, suggest_mole (ruleScoreItems sqrtQ msgs tu agents) = some p ∧
      p ∈ ruleScoreItems sqrtQ msgs tu agents ∧
      ∀ q ∈ ruleScoreItems sqrtQ msgs tu agents, q.2 ≤ p.2 := by
  refine ⟨fun a => ruleScore_nonneg sqrtQ msgs tu a, ?_⟩
  apply suggest_mole_spec
  simp only [ruleScoreItems, ne_eq, List.map_eq_nil_iff]
  exact pyDedup_ne_nil agents hne

/-- Witness for C7: the amended statement instantiated on the concrete
counterexample session. -/
theorem C7_amended_witness :
    (∀ a : String, 0 ≤ ruleScore (fun _ => 0) [cexMsg] [] a) ∧
    ∃ p, suggest_mole (ruleScoreItems (fun _ => 0) [cexMsg] [] cexAgents) = some p ∧
      p ∈ ruleScoreItems (fun _ => 0) [cexMsg] [] cexAgents ∧
      ∀ q ∈ ruleScoreItems (fun _ => 0) [cexMsg] [] cexAgents, q.2 ≤ p.2 :=
  C7_amended_nonneg_argmax (fun _ => 0) [cexMsg] [] cexAgents (by decide)

/-- C7 (counterexample): on a session whose only message packs one timing
keyword, two contradiction keywords and all six hesitation markers, the
saboteur's rule score is `3/2`, outside `[0, 1]`.  The message-length
variance of this input is `0`, so the floating-point square root the
embedding abstracts is evaluated only at `0`, where it returns `0` — the
instantiation `fun _ => 0` agrees with `math.sqrt` on every value used. -/
theorem C7_counterexample_score_exceeds_one :
    msgLenVariance [cexMsg] = 0 ∧
    ruleScore (fun _ => 0) [cexMsg] [] "saboteur" = 3 / 2 ∧
    ¬ (ruleScore (fun _ => 0) [cexMsg] [] "saboteur" ≤ 1) ∧
    suggest_mole (ruleScoreItems (fun _ => 0) [cexMsg] [] cexAgents) =
      some ("saboteur", 3 / 2) := by
  have hlen : allMsgLengths [cexMsg] = [36] := by decide
  have hvar : msgLenVariance [cexMsg] = 0 := by
    unfold msgLenVariance meanMsgLen
    rw [hlen]
    norm_num
  have htool : ∀ a : String, toolScore [] a = 0 := fun a => rfl
  have hts : timingScore [cexMsg] "saboteur" = 1 := by
    unfold timingScore
    rw [show maxTiming [cexMsg] = 1 from by decide,
        show maxContra [cexMsg] = 2 from by decide,
        show timingCount [cexMsg] "saboteur" = 1 from by decide,
        show contraCount [cexMsg] "saboteur" = 2 from by decide]
    norm_num
  have hta : timingScore [cexMsg] "ally" = 0 := by
    unfold timingScore
    rw [show maxTiming [cexMsg] = 1 from by decide,
        show maxContra [cexMsg] = 2 from by decide,
        show timingCount [cexMsg] "ally" = 0 from by decide,
        show contraCount [cexMsg] "ally" = 0 from by decide]
    norm_num
  have hbase : msgBase (fun _ => 0) [cexMsg] "saboteur" = 0 := by
    unfold msgBase
    norm_num
  have hhes : hesFreq [cexMsg] "saboteur" = 6 := by
    unfold hesFreq
    rw [show hesitationCount (contentsOf [cexMsg] "saboteur") = 6 from by decide,
        show (contentsOf [cexMsg] "saboteur").length = 1 from by decide]
    norm_num
  have hms : msgScore (fun _ => 0) [cexMsg] "saboteur" = 6 := by
    unfold msgScore
    rw [show (contentsOf [cexMsg] "saboteur").isEmpty = false from by decide,
        show (allMsgLengths [cexMsg]).isEmpty = false from by decide, hbase, hhes]
    norm_num
  have hmsa : msgScore (fun _ => 0) [cexMsg] "ally" = 0 := by
    unfold msgScore
    rw [show (contentsOf [cexMsg] "ally").isEmpty = true from by decide]
    norm_num
  have hisab : infoScore [cexMsg] "saboteur" = 0 := by
    unfold infoScore
    rw [show concreteCount [cexMsg] "saboteur" = 0 from by decide,
        show vagueCount [cexMsg] "saboteur" = 0 from by decide]
    norm_num
  have hia : infoScore [cexMsg] "ally" = 0 := by
    unfold infoScore
    rw [show concreteCount [cexMsg] "ally" = 0 from by decide,
        show vagueCount [cexMsg] "ally" = 0 from by decide]
    norm_num
  have hrs : ruleScore (fun _ => 0) [cexMsg] [] "saboteur" = 3 / 2 := by
    unfold ruleScore
    rw [htool "saboteur", hts, hms, hisab]
    norm_num
  have hra : ruleScore (fun _ => 0) [cexMsg] [] "ally" = 0 := by
    unfold ruleScore
    rw [htool "ally", hta, hmsa, hia]
    norm_num
  have hitems : ruleScoreItems (fun _ => 0) [cexMsg] [] cexAgents =
      [("saboteur", 3 / 2), ("ally", 0)] := by
    unfold ruleScoreItems
    rw [show pyDedup cexAgents = ["saboteur", "ally"] from by decide]
    simp [hrs, hra]
  have hsug : suggest_mole [("saboteur", (3 : ℚ) / 2), ("ally", 0)] =
      some ("saboteur", 3 / 2) := by
    norm_num [suggest_mole, get_top_suspects, sortDesc, insertDesc]
  exact ⟨hvar, hrs, by rw [hrs]; norm_num, by rw [hitems]; exact hsug⟩

/-- C8 (amended): when the external judgment call fails or its output cannot
be parsed, `analyze_session` returns exactly the pure rule-based scores and
raises nothing to the caller — but the response carries no `degraded` flag at
all: it is the bare score dictionary, identical to the response of a run
with the judgment disabled, so the degradation is not surfaced. -/
theorem C8_amended_silent_fallback (sqrtQ : ℚ → ℚ) (msgs : List DMsg) (tu : List ToolUse)
    (agents : List String) (llmAny : Option (List (String × ℚ))) :
    analyze_session true none sqrtQ msgs tu agents = ruleScoreItems sqrtQ msgs tu agents ∧
    analyze_session true none sqrtQ msgs tu agents =
      analyze_session false llmAny sqrtQ msgs tu agents := by
  refine ⟨analyze_fallback_eq sqrtQ msgs tu agents, ?_⟩
  rw [analyze_fallback_eq, analyze_noLlm_eq]

/-- C8 (counterexample): on a concrete input, the response of an analysis
whose external call failed is identical — same dictionary, no extra field —
to the response of an analysis run with the judgment disabled, and equals
the bare rule scores: the claimed `degraded` flag does not exist in the
response. -/
theorem C8_counterexample_no_degraded_flag :
    analyze_session true none (fun _ => 0) [⟨some "x", "hi"⟩] [] ["x", "y"] =
      analyze_session false (some [("y", 1)]) (fun _ => 0) [⟨some "x", "hi"⟩] [] ["x", "y"] ∧
    analyze_session true none (fun _ => 0) [⟨some "x", "hi"⟩] [] ["x", "y"] =
      ruleScoreItems (fun _ => 0) [⟨some "x", "hi"⟩] [] ["x", "y"] := by
  constructor
  · rw [analyze_fallback_eq, analyze_noLlm_eq]
  · exact analyze_fallback_eq (fun _ => 0) [⟨some "x", "hi"⟩] [] ["x", "y"]

/-- C6 (counterexample): a session started with exactly one participant —
fewer than two — still gets a mole and a strategy assigned by
`start_session`; the assignment is not null. -/
theorem C6_counterexample_single_agent_mole :
    (start_session Controller.init "solo" ["alice"] 0 0).2.mole_selected = true ∧
    (getKey (start_session Controller.init "solo" ["alice"] 0 0).1.active_sessions "solo").map
      Session.mole = some (some "alice") ∧
    (getKey (start_session Controller.init "solo" ["alice"] 0 0).1.active_sessions "solo").map
      Session.sabotage_pattern = some (some .timing_errors) := by
  decide

end Heist
